import Mathlib

/-!
# The Qt front-end window of the emulator (`src/platform/qt/Window.cpp`)

A shallow embedding of `QGBA::Window`: the key mapper, the key event handlers,
the ROM selection slot, the save-state browser overlay, the menu set-up, the
shutdown broadcast and the stacked screen widget.

Calls that leave the window (to the game controller, the display, the log view,
the state browser and to the base-class handlers of Qt) are recorded, in order,
in the `trace` field of the window state.
-/

namespace QGBA

/-! ## Key mapping -/

/-- Modelled from the spec: the `GBAKey` enumeration, declared in `gba.h` and not in
Window.cpp. One constructor per logical button named by `Window::mapKey`, and
`GBA_KEY_NONE` for "no mapping". -/
inductive GBAKey
  | GBA_KEY_A
  | GBA_KEY_B
  | GBA_KEY_SELECT
  | GBA_KEY_START
  | GBA_KEY_RIGHT
  | GBA_KEY_LEFT
  | GBA_KEY_UP
  | GBA_KEY_DOWN
  | GBA_KEY_R
  | GBA_KEY_L
  | GBA_KEY_NONE
  deriving DecidableEq, Repr

/-- The key codes of `enum Qt::Key` (Qt library) that `Window::mapKey` names. -/
def Key_Z : Int := 0x5a
/-- The code of `Qt::Key_X`. -/
def Key_X : Int := 0x58
/-- The code of `Qt::Key_A`. -/
def Key_A : Int := 0x41
/-- The code of `Qt::Key_S`. -/
def Key_S : Int := 0x53
/-- The code of `Qt::Key_Return`. -/
def Key_Return : Int := 0x01000004
/-- The code of `Qt::Key_Backspace`. -/
def Key_Backspace : Int := 0x01000003
/-- The code of `Qt::Key_Up`. -/
def Key_Up : Int := 0x01000013
/-- The code of `Qt::Key_Down`. -/
def Key_Down : Int := 0x01000015
/-- The code of `Qt::Key_Left`. -/
def Key_Left : Int := 0x01000012
/-- The code of `Qt::Key_Right`. -/
def Key_Right : Int := 0x01000014

/-- The function `Window::mapKey` (Window.cpp lines 54-89): a `switch` over the key code,
each `case` returning at once, `default` returning `GBA_KEY_NONE`. -/
def mapKey (qtKey : Int) : GBAKey :=
  if qtKey = Key_Z then GBAKey.GBA_KEY_A
  else if qtKey = Key_X then GBAKey.GBA_KEY_B
  else if qtKey = Key_A then GBAKey.GBA_KEY_L
  else if qtKey = Key_S then GBAKey.GBA_KEY_R
  else if qtKey = Key_Return then GBAKey.GBA_KEY_START
  else if qtKey = Key_Backspace then GBAKey.GBA_KEY_SELECT
  else if qtKey = Key_Up then GBAKey.GBA_KEY_UP
  else if qtKey = Key_Down then GBAKey.GBA_KEY_DOWN
  else if qtKey = Key_Left then GBAKey.GBA_KEY_LEFT
  else if qtKey = Key_Right then GBAKey.GBA_KEY_RIGHT
  else GBAKey.GBA_KEY_NONE

/-- The mapping table as the specification words it: ten pairs of a key code and a button.
A key code absent from the table has no mapping. -/
def keyTable : List (Int × GBAKey) :=
  [ (Key_Z, GBAKey.GBA_KEY_A), (Key_X, GBAKey.GBA_KEY_B), (Key_A, GBAKey.GBA_KEY_L),
    (Key_S, GBAKey.GBA_KEY_R), (Key_Return, GBAKey.GBA_KEY_START),
    (Key_Backspace, GBAKey.GBA_KEY_SELECT), (Key_Up, GBAKey.GBA_KEY_UP),
    (Key_Down, GBAKey.GBA_KEY_DOWN), (Key_Left, GBAKey.GBA_KEY_LEFT),
    (Key_Right, GBAKey.GBA_KEY_RIGHT) ]

/-- Reading of the table of the specification: the button paired with `k`, or
`GBA_KEY_NONE` when no pair has `k`. -/
def tableLookup (k : Int) : GBAKey :=
  match keyTable.find? (fun p => decide (p.1 = k)) with
  | some p => p.2
  | none => GBAKey.GBA_KEY_NONE

/-! ## Collaborators of the window -/

/-- Widgets are told apart by the order of their creation. -/
abbrev WidgetId := Nat

/-- The two modes of the state browser (`enum class LoadSave` of LoadSaveState.h). -/
inductive LoadSave
  | LOAD
  | SAVE
  deriving DecidableEq, Repr

/-- Modelled from the spec: the three states of a session (spec section 3). -/
inductive SessionState
  | Stopped
  | Running
  | Paused
  deriving DecidableEq, Repr

/-- Modelled from the spec: the part of `GameController` (defined in GameController.cpp,
not in Window.cpp) that the window reads back, namely the state of the session. -/
structure GameController where
  session : SessionState
  deriving DecidableEq, Repr

/-- Modelled from the spec: `GameController::isPaused`, true exactly in state Paused. -/
def GameController.isPaused (c : GameController) : Bool :=
  match c.session with
  | SessionState.Paused => true
  | _ => false

/-- Modelled from the spec: `GameController::setPaused` (spec 4.2): valid only when the
session is not Stopped, a no-op otherwise; moves between Running and Paused. -/
def GameController.setPaused (paused : Bool) (c : GameController) : GameController :=
  match c.session with
  | SessionState.Stopped => c
  | _ => { session := if paused then SessionState.Paused else SessionState.Running }

/-- Modelled from the spec: `GameController::closeGame` (spec 4.2, closeSession): a no-op
when Stopped, otherwise the session becomes Stopped. -/
def GameController.closeGame (c : GameController) : GameController :=
  match c.session with
  | SessionState.Stopped => c
  | _ => { session := SessionState.Stopped }

/-- The slots of the game controller that the window invokes. -/
inductive ControllerCall
  | loadGame (path : String)
  | closeGame
  | reset
  | setPaused (paused : Bool)
  | frameAdvance
  | loadState (slot : Int)
  | saveState (slot : Int)
  | keyPressed (key : GBAKey)
  | keyReleased (key : GBAKey)
  | setAudioBufferSamples (samples : Int)
  | setFPSTarget (target : Int)
  deriving DecidableEq, Repr

/-- Everything the window calls outside itself, as recorded in the trace. -/
inductive Call
  | controller (c : ControllerCall)
  | displayStartDrawing
  | displayStopDrawing
  | logViewShow
  | logViewHide
  | stateWindowShow (id : WidgetId)
  | stateWindowHide (id : WidgetId)
  | QWidget_keyPressEvent
  | QWidget_keyReleaseEvent
  | QMainWindow_closeEvent
  | setFocus
  | showNormal
  | showFullScreen
  | setCursor (blank : Bool)
  | resize (scale : Int)
  deriving DecidableEq, Repr

/-- The controller calls of a trace, in order. -/
def controllerCalls : List Call → List ControllerCall
  | [] => []
  | Call.controller c :: rest => c :: controllerCalls rest
  | _ :: rest => controllerCalls rest

/-- A key event of Qt: the key code, the auto-repeat flag and the accept flag
(set on creation, cleared by `ignore()`). -/
structure QKeyEvent where
  key : Int
  isAutoRepeat : Bool
  accepted : Bool
  deriving DecidableEq, Repr

/-! ## The stacked screen widget -/

/-- The stacked layout of `m_screenWidget` as Qt keeps it (`QStackedLayoutPrivate`): the
stacked widgets in order, the index of the current one (`-1` when there is none), and with
them the widgets whose last `show()`/`hide()` was a `show()`. -/
structure ScreenState where
  list : List WidgetId
  index : Int
  shown : List WidgetId
  deriving DecidableEq, Repr

/-- The widget at a position (`QStackedLayout::widget`), none when out of range. -/
def ScreenState.widget (s : ScreenState) (i : Int) : Option WidgetId :=
  if i < 0 then none else s.list[i.toNat]?

/-- The current widget (`QStackedLayout::currentWidget`). -/
def ScreenState.currentWidget (s : ScreenState) : Option WidgetId :=
  s.widget s.index

/-- The effect of `QWidget::show` on the shown widgets. -/
def ScreenState.showWidget (x : WidgetId) (s : ScreenState) : ScreenState :=
  { s with shown := if x ∈ s.shown then s.shown else x :: s.shown }

/-- The effect of `QWidget::hide` on the shown widgets. -/
def ScreenState.hideWidget (x : WidgetId) (s : ScreenState) : ScreenState :=
  { s with shown := s.shown.filter (fun y => decide (y ≠ x)) }

/-- Position of the first occurrence of a widget from position `i` on, `-1` when absent
(`QLayout::indexOf`). -/
def indexFrom (x : WidgetId) : List WidgetId → Int → Int
  | [], _ => -1
  | y :: rest, i => if y = x then i else indexFrom x rest (i + 1)

/-- The position of a widget in the stack (`QLayout::indexOf`), `-1` when absent. -/
def ScreenState.indexOf (x : WidgetId) (s : ScreenState) : Int :=
  indexFrom x s.list 0

/-- The method `QStackedLayout::setCurrentIndex` in the default stacking mode: nothing
happens when there is no widget at `i` or it is already the current one; otherwise the
previous current widget is hidden and the new one is shown. -/
def ScreenState.setCurrentIndex (i : Int) (s : ScreenState) : ScreenState :=
  match s.widget i with
  | none => s
  | some next =>
    if s.currentWidget = some next then s
    else
      let s1 := match s.currentWidget with
        | some prev => s.hideWidget prev
        | none => s
      ({ s1 with index := i }).showWidget next

/-- The method `QStackedLayout::takeAt`: the item leaves the list; when it was the current
one a neighbour becomes current, when it stood before the current one the index moves down;
the widget taken out is hidden. -/
def ScreenState.takeAt (i : Int) (s : ScreenState) : ScreenState :=
  if i < 0 ∨ (s.list.length : Int) ≤ i then s
  else
    match s.list[i.toNat]? with
    | none => s
    | some x =>
      let s1 : ScreenState := { s with list := s.list.eraseIdx i.toNat }
      let s2 : ScreenState :=
        if i = s.index then
          let s3 : ScreenState := { s1 with index := -1 }
          if 0 < s3.list.length then
            s3.setCurrentIndex (if i = (s3.list.length : Int) then i - 1 else i)
          else s3
        else if i < s.index then { s1 with index := s.index - 1 }
        else s1
      s2.hideWidget x

/-- The method `QLayout::removeWidget`: the first item holding the widget is taken out;
nothing happens when the widget is not in the layout. -/
def ScreenState.removeWidget (x : WidgetId) (s : ScreenState) : ScreenState :=
  s.takeAt (s.indexOf x)

/-- The method `QLayout::addWidget` on a stacked layout: a widget that is already in the
layout is first taken out of it (`QLayout::addChildWidget`), then it is appended
(`QStackedLayout::insertWidget` at the end): it becomes current when there was no current
widget, and is hidden otherwise. -/
def ScreenState.addWidget (x : WidgetId) (s : ScreenState) : ScreenState :=
  let s0 := s.removeWidget x
  let s1 : ScreenState := { s0 with list := s0.list ++ [x] }
  if s0.index < 0 then s1.setCurrentIndex (s0.list.length : Int)
  else s1.hideWidget x

/-- The method `QStackedLayout::setCurrentWidget`: nothing happens (but a warning) when the
widget is not in the stack. -/
def ScreenState.setCurrentWidget (x : WidgetId) (s : ScreenState) : ScreenState :=
  if s.indexOf x = -1 then s else s.setCurrentIndex (s.indexOf x)

/-! ## The window state -/

/-- What a menu command does when triggered: the slot or lambda connected to its
`triggered` signal in `Window::setupMenu`. The `float` argument of `fpsTargetChanged` only
takes the whole numbers written in `setupMenu`, and `setSize k` stands for the lambda that
calls `showNormal()` and `resize` with `k` times the native resolution. -/
inductive Effect
  | selectROM
  | controllerReset
  | controllerCloseGame
  | openStateWindow (ls : LoadSave)
  | loadState (slot : Int)
  | saveState (slot : Int)
  | controllerSetPaused
  | controllerFrameAdvance
  | fpsTargetChanged (target : Int)
  | setSize (scale : Int)
  | toggleFullScreen
  | audioBufferSamplesChanged (samples : Int)
  | logViewShow
  deriving DecidableEq, Repr

/-- A menu command (`QAction`): its text, its effect and its Qt flags. Shortcuts and the
placement in menus are left out. -/
structure QAction where
  text : String
  effect : Effect
  checkable : Bool
  checked : Bool
  enabled : Bool
  deriving DecidableEq, Repr

/-- The two lambdas that `Window::openStateWindow` connects to `LoadSaveState::closed`:
the one of lines 171-175 and the one of line 178. -/
inductive ClosedSlot
  | detach
  | resume
  deriving DecidableEq, Repr

/-- The state browser object as far as the window touches it: its identity, the mode set by
`setMode`, the `WA_DeleteOnClose` attribute and the slots connected to its `closed` signal,
in connection order. -/
structure LoadSaveState where
  id : WidgetId
  mode : Option LoadSave
  deleteOnClose : Bool
  closedConns : List ClosedSlot
  deriving DecidableEq, Repr

/-- The slots connected to the `shutdown()` signal of the window. -/
inductive ShutdownSlot
  | displayStopDrawing
  | controllerCloseGame
  | logViewHide
  | stateWindowHide (id : WidgetId)
  deriving DecidableEq, Repr

/-- The state of a `Window`: its members (Window.h lines 62-67), and what Qt keeps for it:
the command objects in creation order (a command is pointed to by its position), the
connections of the `shutdown()` signal in connection order, the command captured by the
`gamePaused`/`gameUnpaused` lambdas, the full-screen flag, the state browsers alive, the
next widget identity to hand out, and the trace of outside calls. -/
structure Window where
  m_controller : GameController
  m_display : WidgetId
  m_gameActions : List Nat
  m_logView : WidgetId
  m_stateWindow : Option LoadSaveState
  m_screenWidget : ScreenState
  actions : List QAction
  shutdownConns : List ShutdownSlot
  pauseAction : Option Nat
  fullScreen : Bool
  stateWindows : List WidgetId
  nextWidget : WidgetId
  trace : List Call
  deriving DecidableEq, Repr

/-- Record an outside call at the end of the trace. -/
def Window.log (c : Call) (w : Window) : Window :=
  { w with trace := w.trace ++ [c] }

/-- Apply `f` to the element at position `p` of a list, if there is one. -/
def modifyAt {α : Type} (f : α → α) : Nat → List α → List α
  | _, [] => []
  | 0, a :: rest => f a :: rest
  | p + 1, a :: rest => a :: modifyAt f p rest

/-- The call `action->setDisabled(b)` on the command at position `p`. -/
def Window.setDisabled (b : Bool) (w : Window) (p : Nat) : Window :=
  { w with actions := modifyAt (fun a => { a with enabled := !b }) p w.actions }

/-- The call `m_controller->setPaused(b)`. The `gamePaused`/`gameUnpaused` signal with
which the controller answers reaches the window as a step of its own
(`WindowOp.gamePaused`). -/
def Window.controllerSetPaused (b : Bool) (w : Window) : Window :=
  ({ w with m_controller := w.m_controller.setPaused b }).log
    (Call.controller (ControllerCall.setPaused b))

/-- The call `m_controller->closeGame()`. The `gameStopped` signal with which the
controller answers reaches the window as a step of its own (`WindowOp.gameStopped`). -/
def Window.controllerCloseGame (w : Window) : Window :=
  ({ w with m_controller := w.m_controller.closeGame }).log
    (Call.controller ControllerCall.closeGame)

/-! ## Operations of the window -/

/-- The function `Window::attachWidget` (lines 332-335). -/
def Window.attachWidget (widget : WidgetId) (w : Window) : Window :=
  { w with m_screenWidget := (w.m_screenWidget.addWidget widget).setCurrentWidget widget }

/-- The function `Window::selectROM` (lines 91-96); `filename` is what the file dialog
returned. -/
def Window.selectROM (filename : String) (w : Window) : Window :=
  if filename.length ≠ 0 then w.log (Call.controller (ControllerCall.loadGame filename))
  else w

/-- The base-class handler `QWidget::keyPressEvent` (Qt library): for a window that is not
a popup it ignores the event. -/
def Window.QWidget_keyPressEvent (w : Window) (event : QKeyEvent) : Window × QKeyEvent :=
  (w.log Call.QWidget_keyPressEvent, { event with accepted := false })

/-- The base-class handler `QWidget::keyReleaseEvent` (Qt library): it ignores the event. -/
def Window.QWidget_keyReleaseEvent (w : Window) (event : QKeyEvent) : Window × QKeyEvent :=
  (w.log Call.QWidget_keyReleaseEvent, { event with accepted := false })

/-- The function `Window::keyPressEvent` (lines 108-120). -/
def Window.keyPressEvent (w : Window) (event : QKeyEvent) : Window × QKeyEvent :=
  if event.isAutoRepeat then w.QWidget_keyPressEvent event
  else
    let key := mapKey event.key
    if key = GBAKey.GBA_KEY_NONE then w.QWidget_keyPressEvent event
    else
      (w.log (Call.controller (ControllerCall.keyPressed key)), { event with accepted := true })

/-- The function `Window::keyReleaseEvent` (lines 122-134). The branch for a key without
mapping calls `QWidget::keyPressEvent` (line 129). -/
def Window.keyReleaseEvent (w : Window) (event : QKeyEvent) : Window × QKeyEvent :=
  if event.isAutoRepeat then w.QWidget_keyReleaseEvent event
  else
    let key := mapKey event.key
    if key = GBAKey.GBA_KEY_NONE then w.QWidget_keyPressEvent event
    else
      (w.log (Call.controller (ControllerCall.keyReleased key)), { event with accepted := true })

/-- Invocation of one slot connected to `shutdown()`. -/
def Window.invokeShutdownSlot (w : Window) : ShutdownSlot → Window
  | ShutdownSlot.displayStopDrawing => w.log Call.displayStopDrawing
  | ShutdownSlot.controllerCloseGame => w.controllerCloseGame
  | ShutdownSlot.logViewHide =>
    ({ w with m_screenWidget := w.m_screenWidget.hideWidget w.m_logView }).log Call.logViewHide
  | ShutdownSlot.stateWindowHide id =>
    ({ w with m_screenWidget := w.m_screenWidget.hideWidget id }).log (Call.stateWindowHide id)

/-- The statement `emit shutdown()`: Qt runs the connected slots one after the other, in
the order in which they were connected. -/
def Window.emitShutdown (w : Window) : Window :=
  w.shutdownConns.foldl Window.invokeShutdownSlot w

/-- The function `Window::closeEvent` (lines 136-139). The close event itself is only
handed on to `QMainWindow::closeEvent`. -/
def Window.closeEvent (w : Window) : Window :=
  w.emitShutdown.log Call.QMainWindow_closeEvent

/-- The function `Window::toggleFullScreen` (lines 141-149). -/
def Window.toggleFullScreen (w : Window) : Window :=
  if w.fullScreen then
    (({ w with fullScreen := false }).log Call.showNormal).log (Call.setCursor false)
  else
    (({ w with fullScreen := true }).log Call.showFullScreen).log (Call.setCursor true)

/-- The function `Window::gameStarted` (lines 151-156); the `startDrawing` signal reaches
the display through a queued connection (line 40). -/
def Window.gameStarted (w : Window) : Window :=
  w.m_gameActions.foldl (Window.setDisabled false) (w.log Call.displayStartDrawing)

/-- The function `Window::gameStopped` (lines 158-162). -/
def Window.gameStopped (w : Window) : Window :=
  w.m_gameActions.foldl (Window.setDisabled true) w

/-- Apply `f` to the open state browser, if any. -/
def Window.onStateWindow (f : LoadSaveState → LoadSaveState) (w : Window) : Window :=
  { w with m_stateWindow := w.m_stateWindow.map f }

/-- The function `Window::openStateWindow` (lines 164-187), statement by statement. -/
def Window.openStateWindow (ls : LoadSave) (w : Window) : Window :=
  match w.m_stateWindow with
  | some _ => w
  | none =>
    let wasPaused := w.m_controller.isPaused
    let id := w.nextWidget
    let w1 : Window :=
      { w with
        m_stateWindow := some { id := id, mode := none, deleteOnClose := false, closedConns := [] }
        nextWidget := id + 1
        stateWindows := w.stateWindows ++ [id] }
    let w2 : Window := { w1 with shutdownConns := w1.shutdownConns ++ [ShutdownSlot.stateWindowHide id] }
    let w3 := w2.onStateWindow (fun sw => { sw with closedConns := sw.closedConns ++ [ClosedSlot.detach] })
    let w4 :=
      if !wasPaused then
        (w3.controllerSetPaused true).onStateWindow
          (fun sw => { sw with closedConns := sw.closedConns ++ [ClosedSlot.resume] })
      else w3
    let w5 := w4.onStateWindow (fun sw => { sw with deleteOnClose := true })
    let w6 := w5.onStateWindow (fun sw => { sw with mode := some ls })
    if w6.fullScreen then w6.attachWidget id
    else ({ w6 with m_screenWidget := w6.m_screenWidget.showWidget id }).log (Call.stateWindowShow id)

/-- Invocation of one slot connected to `LoadSaveState::closed`: the lambda of lines
171-175, or the lambda of line 178. -/
def Window.runClosedSlot (w : Window) : ClosedSlot → Window
  | ClosedSlot.detach =>
    let screen := match w.m_stateWindow with
      | some sw => w.m_screenWidget.removeWidget sw.id
      | none => w.m_screenWidget
    ({ w with m_screenWidget := screen, m_stateWindow := none }).log Call.setFocus
  | ClosedSlot.resume => w.controllerSetPaused false

/-- Destruction of a state browser: Qt drops the connections whose receiver it is and the
widget is gone from the screen. -/
def Window.destroyStateWindow (id : WidgetId) (w : Window) : Window :=
  { w with
    shutdownConns := w.shutdownConns.filter (fun c => decide (c ≠ ShutdownSlot.stateWindowHide id))
    stateWindows := w.stateWindows.filter (fun x => decide (x ≠ id))
    m_screenWidget := (w.m_screenWidget.removeWidget id).hideWidget id }

/-- The open state browser emits `closed()`: the connected slots run in connection order;
the browser, which has `WA_DeleteOnClose`, is then destroyed. Without a browser there is
nothing to emit the signal. -/
def Window.stateWindowClosed (w : Window) : Window :=
  match w.m_stateWindow with
  | none => w
  | some sw =>
    let w1 := sw.closedConns.foldl Window.runClosedSlot w
    if sw.deleteOnClose then w1.destroyStateWindow sw.id else w1

/-! ## The menu -/

/-- A new command object (`new QAction(text, menu)` followed by the `connect` of its
`triggered` signal): commands are created enabled and not checkable. -/
def Window.newAction (text : String) (effect : Effect) (w : Window) : Window :=
  { w with
    actions := w.actions ++
      [{ text := text, effect := effect, checkable := false, checked := false, enabled := true }] }

/-- The statement `m_gameActions.append(action)` for the command created last. -/
def Window.appendGameAction (w : Window) : Window :=
  { w with m_gameActions := w.m_gameActions ++ [w.actions.length - 1] }

/-- The body of the quick load / quick save loop (lines 223-233) for slot `i`. -/
def Window.quickBody (i : Int) (w : Window) : Window :=
  let w1 := (w.newAction ("State &" ++ toString i) (Effect.loadState i)).appendGameAction
  (w1.newAction ("State &" ++ toString i) (Effect.saveState i)).appendGameAction

/-- The loop `for (i = 1; i < 10; ++i)` of lines 222-234, entered with the current value
of `i`. -/
def Window.quickLoop (i : Int) (w : Window) : Window :=
  if i < 10 then Window.quickLoop (i + 1) (w.quickBody i) else w
termination_by (10 - i).toNat
decreasing_by omega

/-- The statements `pause->setChecked(false); pause->setCheckable(true);` and the capture
of the command by the `gamePaused`/`gameUnpaused` lambdas (lines 239-244), for the command
created last. -/
def Window.makePauseAction (w : Window) : Window :=
  { w with
    actions := modifyAt (fun a => { a with checked := false, checkable := true })
      (w.actions.length - 1) w.actions
    pauseAction := some (w.actions.length - 1) }

/-- The function `Window::setupMenu` (lines 189-330), built without `USE_GDB_STUB`: the
commands in the order of their creation, the gated ones appended to `m_gameActions`, and
at the end every gated command disabled. -/
def Window.setupMenu (w : Window) : Window :=
  let w := w.newAction "Load &ROM..." Effect.selectROM
  let w := (w.newAction "&Reset" Effect.controllerReset).appendGameAction
  let w := (w.newAction "Sh&utdown" Effect.controllerCloseGame).appendGameAction
  let w := (w.newAction "&Load state" (Effect.openStateWindow LoadSave.LOAD)).appendGameAction
  let w := (w.newAction "&Save state" (Effect.openStateWindow LoadSave.SAVE)).appendGameAction
  let w := w.quickLoop 1
  let w := ((w.newAction "&Pause" Effect.controllerSetPaused).makePauseAction).appendGameAction
  let w := (w.newAction "&Next frame" Effect.controllerFrameAdvance).appendGameAction
  let w := w.newAction "15" (Effect.fpsTargetChanged 15)
  let w := w.newAction "30" (Effect.fpsTargetChanged 30)
  let w := w.newAction "45" (Effect.fpsTargetChanged 45)
  let w := w.newAction "60" (Effect.fpsTargetChanged 60)
  let w := w.newAction "90" (Effect.fpsTargetChanged 90)
  let w := w.newAction "120" (Effect.fpsTargetChanged 120)
  let w := w.newAction "240" (Effect.fpsTargetChanged 240)
  let w := w.newAction "1x" (Effect.setSize 1)
  let w := w.newAction "2x" (Effect.setSize 2)
  let w := w.newAction "3x" (Effect.setSize 3)
  let w := w.newAction "4x" (Effect.setSize 4)
  let w := w.newAction "Fullscreen" Effect.toggleFullScreen
  let w := w.newAction "512" (Effect.audioBufferSamplesChanged 512)
  let w := w.newAction "1024" (Effect.audioBufferSamplesChanged 1024)
  let w := w.newAction "2048" (Effect.audioBufferSamplesChanged 2048)
  let w := w.newAction "View &logs..." Effect.logViewShow
  w.m_gameActions.foldl (Window.setDisabled true) w

/-- The constructor `Window::Window` (lines 17-48): the log view, the screen widget and the
display are created in this order, the display is attached, the three `shutdown()`
connections are made in the order of lines 41-43, and the menu is set up. A new controller
has no session. -/
def Window.new : Window :=
  let w : Window :=
    { m_controller := { session := SessionState.Stopped }
      m_display := 2
      m_gameActions := []
      m_logView := 0
      m_stateWindow := none
      m_screenWidget := { list := [], index := -1, shown := [] }
      actions := []
      shutdownConns := []
      pauseAction := none
      fullScreen := false
      stateWindows := []
      nextWidget := 3
      trace := [] }
  let w := w.attachWidget w.m_display
  let w := { w with shutdownConns := w.shutdownConns ++ [ShutdownSlot.displayStopDrawing] }
  let w := { w with shutdownConns := w.shutdownConns ++ [ShutdownSlot.controllerCloseGame] }
  let w := { w with shutdownConns := w.shutdownConns ++ [ShutdownSlot.logViewHide] }
  w.setupMenu

/-! ## Signals that reach the window, and menu commands -/

/-- The controller emits `gameStarted`: the slot connected at line 35 runs. -/
def Window.onGameStarted (w : Window) : Window :=
  w.gameStarted

/-- The controller emits `gameStopped`: the slots connected at lines 36 and 37 run in this
order. -/
def Window.onGameStopped (w : Window) : Window :=
  (w.log Call.displayStopDrawing).gameStopped

/-- The controller emits `gamePaused` (`b = true`) or `gameUnpaused` (`b = false`): the
lambda of line 243 or 244 sets the check mark of the pause command. -/
def Window.onGamePaused (b : Bool) (w : Window) : Window :=
  match w.pauseAction with
  | none => w
  | some p => { w with actions := modifyAt (fun a => { a with checked := b }) p w.actions }

/-- What is connected to the `triggered` signal of a command. `checked` is the argument of
`triggered(bool)`, `filename` what the file dialog returns if the command opens it. -/
def Window.runEffect (e : Effect) (checked : Bool) (filename : String) (w : Window) : Window :=
  match e with
  | Effect.selectROM => w.selectROM filename
  | Effect.controllerReset => w.log (Call.controller ControllerCall.reset)
  | Effect.controllerCloseGame => w.controllerCloseGame
  | Effect.openStateWindow ls => w.openStateWindow ls
  | Effect.loadState i => w.log (Call.controller (ControllerCall.loadState i))
  | Effect.saveState i => w.log (Call.controller (ControllerCall.saveState i))
  | Effect.controllerSetPaused => w.controllerSetPaused checked
  | Effect.controllerFrameAdvance => w.log (Call.controller ControllerCall.frameAdvance)
  | Effect.fpsTargetChanged t => w.log (Call.controller (ControllerCall.setFPSTarget t))
  | Effect.setSize k => (({ w with fullScreen := false }).log Call.showNormal).log (Call.resize k)
  | Effect.toggleFullScreen => w.toggleFullScreen
  | Effect.audioBufferSamplesChanged n =>
    w.log (Call.controller (ControllerCall.setAudioBufferSamples n))
  | Effect.logViewShow =>
    ({ w with m_screenWidget := w.m_screenWidget.showWidget w.m_logView }).log Call.logViewShow

/-- The user triggers the command at position `p` (menu entry or shortcut): nothing happens
when there is no such command or it is disabled; a checkable command flips its check mark
first. -/
def Window.trigger (p : Nat) (filename : String) (w : Window) : Window :=
  match w.actions[p]? with
  | none => w
  | some a =>
    if a.enabled then
      let checked := if a.checkable then !a.checked else a.checked
      let w1 : Window := { w with actions := modifyAt (fun b => { b with checked := checked }) p w.actions }
      w1.runEffect a.effect checked filename
    else w

/-- What can happen to a window between its construction and its closing. -/
inductive WindowOp
  | selectROM (filename : String)
  | keyPress (event : QKeyEvent)
  | keyRelease (event : QKeyEvent)
  | toggleFullScreen
  | trigger (p : Nat) (filename : String)
  | gameStarted
  | gameStopped
  | gamePaused (b : Bool)
  | stateWindowClosed
  deriving DecidableEq, Repr

/-- One step of the window. With `gameStarted` the controller reports a session that it
started (spec 4.2: the session is then Running), with `gameStopped` one that it ended. -/
def Window.step (w : Window) : WindowOp → Window
  | WindowOp.selectROM filename => w.selectROM filename
  | WindowOp.keyPress event => (w.keyPressEvent event).1
  | WindowOp.keyRelease event => (w.keyReleaseEvent event).1
  | WindowOp.toggleFullScreen => w.toggleFullScreen
  | WindowOp.trigger p filename => w.trigger p filename
  | WindowOp.gameStarted =>
    ({ w with m_controller := { session := SessionState.Running } }).onGameStarted
  | WindowOp.gameStopped =>
    ({ w with m_controller := { session := SessionState.Stopped } }).onGameStopped
  | WindowOp.gamePaused b => w.onGamePaused b
  | WindowOp.stateWindowClosed => w.stateWindowClosed

/-- The window after a sequence of steps. -/
def Window.run (w : Window) (ops : List WindowOp) : Window :=
  ops.foldl Window.step w

/-- A key event as delivered to the window: a press or a release. -/
inductive KeyInput
  | press (event : QKeyEvent)
  | release (event : QKeyEvent)
  deriving DecidableEq, Repr

/-- The Qt event of a key input. -/
def KeyInput.event : KeyInput → QKeyEvent
  | KeyInput.press event => event
  | KeyInput.release event => event

/-- Delivery of a key input to the handler for its kind. -/
def Window.deliver (w : Window) : KeyInput → Window
  | KeyInput.press event => (w.keyPressEvent event).1
  | KeyInput.release event => (w.keyReleaseEvent event).1

/-- The lifecycle signals of the controller that gate the commands. -/
inductive Lifecycle
  | gameStarted
  | gameStopped
  deriving DecidableEq, Repr

/-- Delivery of a lifecycle signal to the window. -/
def Window.lifecycle (w : Window) : Lifecycle → Window
  | Lifecycle.gameStarted => w.onGameStarted
  | Lifecycle.gameStopped => w.onGameStopped

/-! ## Observations used by the statements -/

/-- The gated commands: the commands that `m_gameActions` points to, in order. -/
def Window.gatedActions (w : Window) : List QAction :=
  w.m_gameActions.filterMap (fun p => w.actions[p]?)

/-- The call made by a slot connected to `shutdown()`. -/
def ShutdownSlot.call : ShutdownSlot → Call
  | ShutdownSlot.displayStopDrawing => Call.displayStopDrawing
  | ShutdownSlot.controllerCloseGame => Call.controller ControllerCall.closeGame
  | ShutdownSlot.logViewHide => Call.logViewHide
  | ShutdownSlot.stateWindowHide id => Call.stateWindowHide id

/-- The slot that a command hands to `loadState` of the controller, if it does so. -/
def Effect.loadSlot : Effect → Option Int
  | Effect.loadState i => some i
  | _ => none

/-- The slot that a command hands to `saveState` of the controller, if it does so. -/
def Effect.saveSlot : Effect → Option Int
  | Effect.saveState i => some i
  | _ => none

/-- A sequence of `openStateWindow` calls with nothing in between. -/
def Window.openStateWindows (w : Window) (modes : List LoadSave) : Window :=
  modes.foldl (fun w1 ls => w1.openStateWindow ls) w

/-- The hide call of the open state browser, if there is one. -/
def Window.stateWindowHideCalls (w : Window) : List Call :=
  match w.m_stateWindow with
  | some sw => [Call.stateWindowHide sw.id]
  | none => []

/-- The session-gated commands as the specification lists them, by their effect: reset,
shutdown, load state, save state, the quick-load and quick-save entries of the nine slots,
pause, next frame. -/
def gatedEffects : List Effect :=
  [ Effect.controllerReset, Effect.controllerCloseGame,
    Effect.openStateWindow LoadSave.LOAD, Effect.openStateWindow LoadSave.SAVE,
    Effect.loadState 1, Effect.saveState 1, Effect.loadState 2, Effect.saveState 2,
    Effect.loadState 3, Effect.saveState 3, Effect.loadState 4, Effect.saveState 4,
    Effect.loadState 5, Effect.saveState 5, Effect.loadState 6, Effect.saveState 6,
    Effect.loadState 7, Effect.saveState 7, Effect.loadState 8, Effect.saveState 8,
    Effect.loadState 9, Effect.saveState 9,
    Effect.controllerSetPaused, Effect.controllerFrameAdvance ]

/-- How the state browser is wired into a window between construction and closing. The
`shutdown()` connections are the three of the constructor in their order, then the one to
the open state browser if there is one. The state browsers alive are the open one, if any.
The open browser has `WA_DeleteOnClose`, and the first slot connected to its `closed`
signal is the lambda of lines 171-175. -/
def Window.shutdownWired (w : Window) : Prop :=
  match w.m_stateWindow with
  | none =>
    w.shutdownConns =
      [ShutdownSlot.displayStopDrawing, ShutdownSlot.controllerCloseGame, ShutdownSlot.logViewHide] ∧
    w.stateWindows = []
  | some sw =>
    w.shutdownConns =
      [ShutdownSlot.displayStopDrawing, ShutdownSlot.controllerCloseGame, ShutdownSlot.logViewHide,
        ShutdownSlot.stateWindowHide sw.id] ∧
    w.stateWindows = [sw.id] ∧
    sw.deleteOnClose = true ∧
    (sw.closedConns = [ClosedSlot.detach] ∨
      sw.closedConns = [ClosedSlot.detach, ClosedSlot.resume])

/-- The stack has no surface twice, `c` is its current surface, and `c` is the one widget
shown. -/
def ScreenState.showsOnly (s : ScreenState) (c : WidgetId) : Prop :=
  s.list.Nodup ∧ s.currentWidget = some c ∧ s.shown = [c]

/-- The stack has no surface twice and is either empty, without current surface and with
nothing shown, or shows only its current surface. -/
def ScreenState.consistent (s : ScreenState) : Prop :=
  s.list.Nodup ∧
    ((s.list = [] ∧ s.index < 0 ∧ s.shown = []) ∨ ∃ c, s.currentWidget = some c ∧ s.shown = [c])

/-- A sequence of `attachWidget` calls with nothing in between. -/
def Window.attachWidgets (w : Window) (widgets : List WidgetId) : Window :=
  widgets.foldl (fun w1 x => w1.attachWidget x) w

/-! ## Helper lemmas -/

theorem controllerCalls_append (xs ys : List Call) :
    controllerCalls (xs ++ ys) = controllerCalls xs ++ controllerCalls ys := by
  induction xs with
  | nil => rfl
  | cons x rest ih => cases x <;> simp [controllerCalls, ih]

theorem length_eq_zero_iff_empty (f : String) : f.length = 0 ↔ f = "" := by
  constructor
  · intro h
    apply String.ext
    exact List.length_eq_zero.1 h
  · intro h
    subst h
    rfl

/-- An auto-repeat key input goes to a base-class handler and adds no controller call. -/
theorem deliver_autoRepeat (w : Window) (e : KeyInput) (h : e.event.isAutoRepeat = true) :
    controllerCalls (w.deliver e).trace = controllerCalls w.trace := by
  cases e with
  | press ev =>
    simp only [KeyInput.event] at h
    simp [Window.deliver, Window.keyPressEvent, h, Window.QWidget_keyPressEvent, Window.log,
      controllerCalls_append, controllerCalls]
  | release ev =>
    simp only [KeyInput.event] at h
    simp [Window.deliver, Window.keyReleaseEvent, h, Window.QWidget_keyReleaseEvent, Window.log,
      controllerCalls_append, controllerCalls]

theorem deliver_autoRepeat_list (mid : List KeyInput) :
    ∀ w : Window, (∀ e ∈ mid, e.event.isAutoRepeat = true) →
      controllerCalls (mid.foldl Window.deliver w).trace = controllerCalls w.trace := by
  induction mid with
  | nil => intro w _; rfl
  | cons e rest ih =>
    intro w h
    simp only [List.foldl_cons]
    rw [ih (w.deliver e) (fun e' he' => h e' (List.mem_cons_of_mem _ he'))]
    exact deliver_autoRepeat w e (h e (List.mem_cons_self _ _))

theorem quickLoop_unroll (w : Window) :
    w.quickLoop 1 =
      (((((((((w.quickBody 1).quickBody 2).quickBody 3).quickBody 4).quickBody 5).quickBody 6).quickBody
        7).quickBody 8).quickBody 9) := by
  rw [Window.quickLoop, if_pos (by decide)]
  rw [Window.quickLoop, if_pos (by decide)]
  rw [Window.quickLoop, if_pos (by decide)]
  rw [Window.quickLoop, if_pos (by decide)]
  rw [Window.quickLoop, if_pos (by decide)]
  rw [Window.quickLoop, if_pos (by decide)]
  rw [Window.quickLoop, if_pos (by decide)]
  rw [Window.quickLoop, if_pos (by decide)]
  rw [Window.quickLoop, if_pos (by decide)]
  rw [Window.quickLoop, if_neg (by decide)]
  rfl

theorem openStateWindows_first_call (w : Window) (ls : LoadSave) (rest : List LoadSave) :
    (w.m_stateWindow ≠ none →
      w.openStateWindow ls = w ∧ w.openStateWindows rest = w) ∧
    (w.m_stateWindow = none →
      w.openStateWindows (ls :: rest) = w.openStateWindow ls ∧
      (w.openStateWindow ls).stateWindows = w.stateWindows ++ [w.nextWidget] ∧
      (w.openStateWindow ls).m_stateWindow.map LoadSaveState.id = some w.nextWidget ∧
      (w.openStateWindow ls).m_stateWindow.map LoadSaveState.mode = some (some ls)) := by
  have hopen : ∀ (v : Window), v.m_stateWindow ≠ none → ∀ m, v.openStateWindow m = v := by
    intro v hv m
    unfold Window.openStateWindow
    cases hs : v.m_stateWindow with
    | none => exact absurd hs hv
    | some sw => rfl
  have hall : ∀ (ms : List LoadSave) (v : Window), v.m_stateWindow ≠ none →
      v.openStateWindows ms = v := by
    intro ms
    induction ms with
    | nil => intro v _; rfl
    | cons m ms ih =>
      intro v hv
      simp only [Window.openStateWindows, List.foldl_cons] at ih ⊢
      rw [hopen v hv m]
      exact ih v hv
  have hsome : w.m_stateWindow = none →
      (w.openStateWindow ls).m_stateWindow.map LoadSaveState.id = some w.nextWidget ∧
      (w.openStateWindow ls).m_stateWindow.map LoadSaveState.mode = some (some ls) ∧
      (w.openStateWindow ls).stateWindows = w.stateWindows ++ [w.nextWidget] := by
    intro hn
    unfold Window.openStateWindow
    rw [hn]
    cases hp : w.m_controller.isPaused <;> cases hf : w.fullScreen <;>
      simp [Window.onStateWindow, Window.controllerSetPaused, Window.log, Window.attachWidget, hf]
  refine ⟨fun h => ⟨hopen w h ls, hall rest w h⟩, fun h => ?_⟩
  obtain ⟨h1, h2, h3⟩ := hsome h
  refine ⟨?_, h3, h1, h2⟩
  show (w.openStateWindow ls).openStateWindows rest = w.openStateWindow ls
  apply hall
  intro hc
  rw [hc] at h1
  cases h1

theorem getElem?_modifyAt {α : Type} (f : α → α) :
    ∀ (l : List α) (p i : Nat),
      (modifyAt f p l)[i]? = if i = p then (l[i]?).map f else l[i]? := by
  intro l
  induction l with
  | nil => intro p i; simp [modifyAt]
  | cons a rest ih =>
    intro p i
    cases p with
    | zero =>
      cases i with
      | zero => simp [modifyAt]
      | succ j => simp [modifyAt]
    | succ q =>
      cases i with
      | zero => simp [modifyAt]
      | succ j => simp [modifyAt, ih q j]

theorem getElem?_foldl_modifyAt {α : Type} (f : α → α) (hf : ∀ a, f (f a) = f a) :
    ∀ (ps : List Nat) (l : List α) (i : Nat),
      (ps.foldl (fun acts p => modifyAt f p acts) l)[i]?
        = if i ∈ ps then (l[i]?).map f else l[i]? := by
  intro ps
  induction ps with
  | nil => intro l i; simp
  | cons p rest ih =>
    intro l i
    simp only [List.foldl_cons, ih, getElem?_modifyAt, List.mem_cons]
    by_cases h1 : i = p <;> by_cases h2 : i ∈ rest <;> simp [h1, h2]
    · cases l[p]? <;> simp [hf]
    · subst h1; simp [h2]

theorem foldl_setDisabled (b : Bool) :
    ∀ (ps : List Nat) (w : Window),
      ps.foldl (Window.setDisabled b) w =
        { w with actions :=
            ps.foldl (fun acts p => modifyAt (fun a => { a with enabled := !b }) p acts) w.actions } := by
  intro ps
  induction ps with
  | nil => intro w; rfl
  | cons p rest ih =>
    intro w
    simp only [List.foldl_cons, ih]
    rfl

theorem lifecycle_gameActions (w : Window) (ev : Lifecycle) :
    (w.lifecycle ev).m_gameActions = w.m_gameActions := by
  cases ev <;>
    simp [Window.lifecycle, Window.onGameStarted, Window.onGameStopped, Window.gameStarted,
      Window.gameStopped, foldl_setDisabled, Window.log]

theorem lifecycle_actions (w : Window) (ev : Lifecycle) (i : Nat) :
    (w.lifecycle ev).actions[i]? =
      if i ∈ w.m_gameActions then
        (w.actions[i]?).map (fun a => { a with enabled := decide (ev = Lifecycle.gameStarted) })
      else w.actions[i]? := by
  cases ev
  · simp only [Window.lifecycle, Window.onGameStarted, Window.gameStarted, foldl_setDisabled,
      Window.log]
    rw [getElem?_foldl_modifyAt (fun a : QAction => { a with enabled := !false }) (fun a => rfl)]
    simp
  · simp only [Window.lifecycle, Window.onGameStopped, Window.gameStopped, foldl_setDisabled,
      Window.log]
    rw [getElem?_foldl_modifyAt (fun a : QAction => { a with enabled := !true }) (fun a => rfl)]
    simp

theorem filterMap_lifecycle (w : Window) (ev : Lifecycle) :
    ∀ ps : List Nat, (∀ p ∈ ps, p ∈ w.m_gameActions) →
      ps.filterMap (fun p => (w.lifecycle ev).actions[p]?) =
        (ps.filterMap (fun p => w.actions[p]?)).map
          (fun a => { a with enabled := decide (ev = Lifecycle.gameStarted) }) := by
  intro ps
  induction ps with
  | nil => intro _; rfl
  | cons p rest ih =>
    intro h
    have hp : p ∈ w.m_gameActions := h p (List.mem_cons_self _ _)
    have hrest := ih (fun q hq => h q (List.mem_cons_of_mem _ hq))
    have hhead := lifecycle_actions w ev p
    rw [if_pos hp] at hhead
    rw [List.filterMap_cons, List.filterMap_cons, hrest, hhead]
    cases hq : w.actions[p]? with
    | none => simp
    | some a => simp

theorem gatedActions_lifecycle (w : Window) (ev : Lifecycle) :
    (w.lifecycle ev).gatedActions =
      w.gatedActions.map (fun a => { a with enabled := decide (ev = Lifecycle.gameStarted) }) := by
  unfold Window.gatedActions
  rw [lifecycle_gameActions]
  exact filterMap_lifecycle w ev w.m_gameActions (fun _ h => h)

theorem gatedEffects_lifecycle (evs : List Lifecycle) :
    ∀ w : Window, (evs.foldl Window.lifecycle w).gatedActions.map QAction.effect
      = w.gatedActions.map QAction.effect := by
  induction evs with
  | nil => intro w; rfl
  | cons ev rest ih =>
    intro w
    simp only [List.foldl_cons]
    rw [ih, gatedActions_lifecycle, List.map_map]
    rfl

theorem new_gatedActions :
    Window.new.gatedActions.map QAction.effect = gatedEffects ∧
    ∀ a ∈ Window.new.gatedActions, a.enabled = false := by
  unfold Window.new Window.setupMenu
  simp only [quickLoop_unroll]
  decide

theorem openStateWindow_trace (w : Window) (ls : LoadSave) (c : Call)
    (h : c ∈ (w.openStateWindow ls).trace) :
    c ∈ w.trace ∨ c = Call.controller (ControllerCall.setPaused true) ∨
      c = Call.stateWindowShow w.nextWidget := by
  unfold Window.openStateWindow at h
  cases hs : w.m_stateWindow with
  | some sw =>
    rw [hs] at h
    exact Or.inl h
  | none =>
    rw [hs] at h
    cases hp : w.m_controller.isPaused <;> cases hf : w.fullScreen <;>
      simp [Window.onStateWindow, Window.controllerSetPaused, Window.log, Window.attachWidget,
        hp, hf] at h <;> tauto

theorem runEffect_loadState_call (w : Window) (e : Effect) (checked : Bool) (filename : String)
    (slot : Int)
    (h : Call.controller (ControllerCall.loadState slot) ∈ (w.runEffect e checked filename).trace) :
    Call.controller (ControllerCall.loadState slot) ∈ w.trace ∨ e = Effect.loadState slot := by
  cases e with
  | openStateWindow ls =>
    rcases openStateWindow_trace w ls _ h with h1 | h1 | h1
    · exact Or.inl h1
    · cases h1
    · cases h1
  | selectROM =>
    simp only [Window.runEffect, Window.selectROM] at h
    split_ifs at h
    · simp [Window.log] at h
      exact Or.inl h
    · exact Or.inl h
  | toggleFullScreen =>
    simp only [Window.runEffect, Window.toggleFullScreen] at h
    split_ifs at h <;> simp [Window.log] at h <;> exact Or.inl h
  | _ =>
    simp [Window.runEffect, Window.log, Window.controllerCloseGame,
      Window.controllerSetPaused] at h
    tauto

theorem runEffect_saveState_call (w : Window) (e : Effect) (checked : Bool) (filename : String)
    (slot : Int)
    (h : Call.controller (ControllerCall.saveState slot) ∈ (w.runEffect e checked filename).trace) :
    Call.controller (ControllerCall.saveState slot) ∈ w.trace ∨ e = Effect.saveState slot := by
  cases e with
  | openStateWindow ls =>
    rcases openStateWindow_trace w ls _ h with h1 | h1 | h1
    · exact Or.inl h1
    · cases h1
    · cases h1
  | selectROM =>
    simp only [Window.runEffect, Window.selectROM] at h
    split_ifs at h
    · simp [Window.log] at h
      exact Or.inl h
    · exact Or.inl h
  | toggleFullScreen =>
    simp only [Window.runEffect, Window.toggleFullScreen] at h
    split_ifs at h <;> simp [Window.log] at h <;> exact Or.inl h
  | _ =>
    simp [Window.runEffect, Window.log, Window.controllerCloseGame,
      Window.controllerSetPaused] at h
    tauto

theorem new_quick_slots :
    Window.new.actions.filterMap (fun a => a.effect.loadSlot) = [1, 2, 3, 4, 5, 6, 7, 8, 9] ∧
    Window.new.actions.filterMap (fun a => a.effect.saveSlot) = [1, 2, 3, 4, 5, 6, 7, 8, 9] := by
  unfold Window.new Window.setupMenu
  simp only [quickLoop_unroll]
  decide

theorem emitShutdown_trace (conns : List ShutdownSlot) :
    ∀ w : Window, (conns.foldl Window.invokeShutdownSlot w).trace
      = w.trace ++ conns.map ShutdownSlot.call := by
  induction conns with
  | nil => intro w; simp
  | cons c rest ih =>
    intro w
    simp only [List.foldl_cons, ih, List.map_cons]
    cases c <;>
      simp [Window.invokeShutdownSlot, Window.log, Window.controllerCloseGame, ShutdownSlot.call]

theorem shutdownWired_of_eq (w v : Window) (h1 : v.m_stateWindow = w.m_stateWindow)
    (h2 : v.shutdownConns = w.shutdownConns) (h3 : v.stateWindows = w.stateWindows)
    (h : w.shutdownWired) : v.shutdownWired := by
  unfold Window.shutdownWired at h ⊢
  rw [h1, h2, h3]
  exact h

theorem openStateWindow_wired (w : Window) (ls : LoadSave) (h : w.shutdownWired) :
    (w.openStateWindow ls).shutdownWired := by
  unfold Window.openStateWindow
  cases hs : w.m_stateWindow with
  | some sw => exact h
  | none =>
    unfold Window.shutdownWired at h
    rw [hs] at h
    cases hp : w.m_controller.isPaused <;> cases hf : w.fullScreen <;>
      simp [Window.shutdownWired, Window.onStateWindow, Window.controllerSetPaused, Window.log,
        Window.attachWidget, hf, h]

theorem stateWindowClosed_wired (w : Window) (h : w.shutdownWired) :
    w.stateWindowClosed.shutdownWired := by
  unfold Window.stateWindowClosed
  cases hs : w.m_stateWindow with
  | none => exact h
  | some sw =>
    unfold Window.shutdownWired at h
    rw [hs] at h
    obtain ⟨h1, h4, h2, h3⟩ := h
    rcases h3 with h3 | h3 <;>
      simp [h2, h3, Window.runClosedSlot, Window.log, Window.controllerSetPaused,
        Window.destroyStateWindow, Window.shutdownWired, hs, h1, h4]

theorem runEffect_wired (w : Window) (e : Effect) (checked : Bool) (filename : String)
    (h : w.shutdownWired) : (w.runEffect e checked filename).shutdownWired := by
  cases e with
  | openStateWindow ls => exact openStateWindow_wired w ls h
  | selectROM =>
    apply shutdownWired_of_eq w _ _ _ _ h <;>
      (simp only [Window.runEffect, Window.selectROM]; split_ifs <;> rfl)
  | toggleFullScreen =>
    apply shutdownWired_of_eq w _ _ _ _ h <;>
      (simp only [Window.runEffect, Window.toggleFullScreen]; split_ifs <;> rfl)
  | _ => exact shutdownWired_of_eq w _ rfl rfl rfl h

theorem step_wired (w : Window) (op : WindowOp) (h : w.shutdownWired) :
    (w.step op).shutdownWired := by
  cases op with
  | selectROM filename =>
    apply shutdownWired_of_eq w _ _ _ _ h <;>
      (simp only [Window.step, Window.selectROM]; split_ifs <;> rfl)
  | keyPress event =>
    apply shutdownWired_of_eq w _ _ _ _ h <;>
      (simp only [Window.step, Window.keyPressEvent]; split_ifs <;> rfl)
  | keyRelease event =>
    apply shutdownWired_of_eq w _ _ _ _ h <;>
      (simp only [Window.step, Window.keyReleaseEvent]; split_ifs <;> rfl)
  | toggleFullScreen =>
    apply shutdownWired_of_eq w _ _ _ _ h <;>
      (simp only [Window.step, Window.toggleFullScreen]; split_ifs <;> rfl)
  | trigger p filename =>
    simp only [Window.step, Window.trigger]
    cases hq : w.actions[p]? with
    | none => exact h
    | some a =>
      simp only
      by_cases he : a.enabled = true
      · rw [if_pos he]
        apply runEffect_wired
        exact shutdownWired_of_eq w _ rfl rfl rfl h
      · rw [if_neg he]
        exact h
  | gameStarted =>
    apply shutdownWired_of_eq w _ _ _ _ h <;>
      simp [Window.step, Window.onGameStarted, Window.gameStarted, foldl_setDisabled, Window.log]
  | gameStopped =>
    apply shutdownWired_of_eq w _ _ _ _ h <;>
      simp [Window.step, Window.onGameStopped, Window.gameStopped, foldl_setDisabled, Window.log]
  | gamePaused b =>
    apply shutdownWired_of_eq w _ _ _ _ h <;>
      (simp only [Window.step, Window.onGamePaused]; cases w.pauseAction <;> rfl)
  | stateWindowClosed => exact stateWindowClosed_wired w h

theorem new_stateWindow : Window.new.m_stateWindow = none := by
  unfold Window.new Window.setupMenu
  simp only [quickLoop_unroll]
  rfl

theorem new_shutdownConns :
    Window.new.shutdownConns =
      [ShutdownSlot.displayStopDrawing, ShutdownSlot.controllerCloseGame, ShutdownSlot.logViewHide] := by
  unfold Window.new Window.setupMenu
  simp only [quickLoop_unroll]
  rfl

theorem new_stateWindows : Window.new.stateWindows = [] := by
  unfold Window.new Window.setupMenu
  simp only [quickLoop_unroll]
  rfl

theorem new_wired : Window.new.shutdownWired := by
  unfold Window.shutdownWired
  rw [new_stateWindow]
  exact ⟨new_shutdownConns, new_stateWindows⟩

theorem run_wired (ops : List WindowOp) :
    ∀ w : Window, w.shutdownWired → (w.run ops).shutdownWired := by
  induction ops with
  | nil => intro w h; exact h
  | cons op rest ih =>
    intro w h
    simp only [Window.run, List.foldl_cons] at ih ⊢
    exact ih _ (step_wired w op h)

theorem indexFrom_spec (x : WidgetId) :
    ∀ (l : List WidgetId) (i : Int),
      (x ∉ l ∧ indexFrom x l i = -1) ∨ (∃ k : Nat, l[k]? = some x ∧ indexFrom x l i = i + k) := by
  intro l
  induction l with
  | nil => intro i; exact Or.inl ⟨by simp, rfl⟩
  | cons y rest ih =>
    intro i
    by_cases hy : y = x
    · right
      refine ⟨0, by simp [hy], by simp [indexFrom, hy]⟩
    · rcases ih (i + 1) with ⟨h1, h2⟩ | ⟨k, h1, h2⟩
      · left
        refine ⟨by simp [h1, Ne.symm hy], by simp [indexFrom, hy, h2]⟩
      · right
        refine ⟨k + 1, by simpa using h1, ?_⟩
        simp only [indexFrom, hy, if_false, h2]
        push_cast
        ring

theorem widget_eq_some (s : ScreenState) (i : Int) (c : WidgetId) :
    s.widget i = some c ↔ 0 ≤ i ∧ s.list[i.toNat]? = some c := by
  unfold ScreenState.widget
  by_cases h : i < 0
  · simp [h]
  · simp [h]
    intro _
    omega

theorem widget_natCast (s : ScreenState) (k : Nat) : s.widget (k : Int) = s.list[k]? := by
  unfold ScreenState.widget
  have h : ¬ ((k : Int) < 0) := by omega
  simp [h]

theorem nodup_index_unique (l : List WidgetId) (hl : l.Nodup) (i j : Nat) (x : WidgetId)
    (hi : l[i]? = some x) (hj : l[j]? = some x) : i = j := by
  have hi' : i < l.length := by
    by_contra hc
    rw [List.getElem?_eq_none (by omega)] at hi
    cases hi
  exact List.getElem?_inj hi' hl (hi.trans hj.symm)

theorem not_mem_eraseIdx_of_nodup (l : List WidgetId) (hl : l.Nodup) (k : Nat) (x : WidgetId)
    (hk : l[k]? = some x) : x ∉ l.eraseIdx k := by
  intro hx
  obtain ⟨i, hik, hi⟩ := List.mem_eraseIdx_iff_getElem?.1 hx
  exact hik (nodup_index_unique l hl i k x hi hk)

theorem mem_eraseIdx_of_ne (l : List WidgetId) (k : Nat) (x y : WidgetId)
    (hk : l[k]? = some x) (hy : y ∈ l) (hxy : y ≠ x) : y ∈ l.eraseIdx k := by
  obtain ⟨i, hi⟩ := List.getElem?_of_mem hy
  refine List.mem_eraseIdx_iff_getElem?.2 ⟨i, ?_, hi⟩
  intro hik
  subst hik
  rw [hi] at hk
  exact hxy (Option.some.inj hk)

theorem takeAt_eq (s : ScreenState) (k : Nat) (x : WidgetId) (hk : s.list[k]? = some x) :
    s.takeAt k =
      ScreenState.hideWidget x
        (if (k : Int) = s.index then
          (if 0 < (s.list.eraseIdx k).length then
            ScreenState.setCurrentIndex
              (if (k : Int) = ((s.list.eraseIdx k).length : Int) then (k : Int) - 1 else (k : Int))
              { s with list := s.list.eraseIdx k, index := -1 }
          else { s with list := s.list.eraseIdx k, index := -1 })
        else if (k : Int) < s.index then { s with list := s.list.eraseIdx k, index := s.index - 1 }
        else { s with list := s.list.eraseIdx k }) := by
  have hlen : k < s.list.length := by
    by_contra hc
    rw [List.getElem?_eq_none (by omega)] at hk
    cases hk
  have h1 : ¬ ((k : Int) < 0 ∨ (s.list.length : Int) ≤ (k : Int)) := by omega
  unfold ScreenState.takeAt
  rw [if_neg h1]
  simp only [Int.toNat_ofNat, hk]

theorem takeAt_consistent (s : ScreenState) (k : Nat) (x : WidgetId) (hs : s.consistent)
    (hk : s.list[k]? = some x) :
    (s.takeAt k).list = s.list.eraseIdx k ∧ (s.takeAt k).consistent := by
  obtain ⟨hnd, hcase⟩ := hs
  have hlen : k < s.list.length := by
    by_contra hc
    rw [List.getElem?_eq_none (by omega)] at hk
    cases hk
  have hnd' : (s.list.eraseIdx k).Nodup := hnd.eraseIdx k
  have hxnot := not_mem_eraseIdx_of_nodup s.list hnd k x hk
  have hlen' : (s.list.eraseIdx k).length = s.list.length - 1 := List.length_eraseIdx_of_lt hlen
  rcases hcase with ⟨hnil, _, _⟩ | ⟨c, hc, hshown⟩
  · rw [hnil] at hk
    simp at hk
  · obtain ⟨hidx, hcget⟩ := (widget_eq_some s s.index c).1 hc
    rw [takeAt_eq s k x hk]
    by_cases h1 : (k : Int) = s.index
    · rw [if_pos h1]
      have hcx : c = x := by
        have hk2 : s.index.toNat = k := by omega
        rw [hk2, hk] at hcget
        exact (Option.some.inj hcget).symm
      subst hcx
      by_cases hpos : 0 < (s.list.eraseIdx k).length
      · rw [if_pos hpos]
        generalize hj : (if (k : Int) = ((s.list.eraseIdx k).length : Int) then (k : Int) - 1
          else (k : Int)) = j
        have hj0 : 0 ≤ j ∧ j.toNat < (s.list.eraseIdx k).length := by
          split_ifs at hj <;> omega
        obtain ⟨d, hd⟩ : ∃ d, (s.list.eraseIdx k)[j.toNat]? = some d :=
          ⟨_, List.getElem?_eq_getElem hj0.2⟩
        have hdmem : d ∈ s.list.eraseIdx k := List.mem_iff_getElem?.2 ⟨_, hd⟩
        have hdc : d ≠ c := fun h => hxnot (h ▸ hdmem)
        have hw : ScreenState.widget { s with list := s.list.eraseIdx k, index := -1 } j = some d :=
          (widget_eq_some _ _ _).2 ⟨hj0.1, hd⟩
        have hcur : ScreenState.currentWidget { s with list := s.list.eraseIdx k, index := -1 }
            = none := by
          simp [ScreenState.currentWidget, ScreenState.widget]
        simp only [ScreenState.setCurrentIndex, hw, hcur, reduceCtorEq, ↓reduceIte]
        simp only [ScreenState.showWidget, ScreenState.hideWidget, hshown]
        refine ⟨trivial, hnd', Or.inr ⟨d, ?_, ?_⟩⟩
        · exact (widget_eq_some _ _ _).2 ⟨hj0.1, hd⟩
        · simp [hdc, Ne.symm hdc]
      · rw [if_neg hpos]
        simp only [ScreenState.hideWidget, hshown]
        refine ⟨trivial, hnd', Or.inl ⟨?_, by simp, by simp⟩⟩
        exact List.length_eq_zero.1 (by simp only at hpos ⊢; omega)
    · rw [if_neg h1]
      have hcx : c ≠ x := by
        intro h
        subst h
        have := nodup_index_unique s.list hnd _ _ _ hcget hk
        omega
      by_cases h2 : (k : Int) < s.index
      · rw [if_pos h2]
        simp only [ScreenState.hideWidget, hshown]
        refine ⟨trivial, hnd', Or.inr ⟨c, ?_, by simp [hcx]⟩⟩
        refine (widget_eq_some _ _ _).2 ⟨by simp only; omega, ?_⟩
        simp only
        rw [List.getElem?_eraseIdx_of_ge _ _ _ (by omega)]
        have : (s.index - 1).toNat + 1 = s.index.toNat := by omega
        rw [this]
        exact hcget
      · rw [if_neg h2]
        simp only [ScreenState.hideWidget, hshown]
        refine ⟨trivial, hnd', Or.inr ⟨c, ?_, by simp [hcx]⟩⟩
        refine (widget_eq_some _ _ _).2 ⟨hidx, ?_⟩
        simp only
        rw [List.getElem?_eraseIdx_of_lt _ _ _ (by omega)]
        exact hcget

theorem removeWidget_consistent (s : ScreenState) (x : WidgetId) (hs : s.consistent) :
    (s.removeWidget x).consistent ∧ x ∉ (s.removeWidget x).list ∧
      ∀ y ∈ s.list, y ≠ x → y ∈ (s.removeWidget x).list := by
  unfold ScreenState.removeWidget ScreenState.indexOf
  rcases indexFrom_spec x s.list 0 with ⟨hx, hi⟩ | ⟨k, hk, hi⟩
  · rw [hi]
    have h0 : s.takeAt (-1) = s := by
      unfold ScreenState.takeAt
      rw [if_pos (Or.inl (by decide))]
    rw [h0]
    exact ⟨hs, hx, fun y hy _ => hy⟩
  · rw [hi, Int.zero_add]
    obtain ⟨h1, h2⟩ := takeAt_consistent s k x hs hk
    refine ⟨h2, ?_, ?_⟩
    · rw [h1]
      exact not_mem_eraseIdx_of_nodup s.list hs.1 k x hk
    · intro y hy hxy
      rw [h1]
      exact mem_eraseIdx_of_ne s.list k x y hk hy hxy

theorem indexFrom_append_self (x : WidgetId) :
    ∀ (l : List WidgetId) (i : Int), x ∉ l → indexFrom x (l ++ [x]) i = i + l.length := by
  intro l
  induction l with
  | nil => intro i _; simp [indexFrom]
  | cons y rest ih =>
    intro i hx
    have hy : y ≠ x := fun h => hx (h ▸ List.mem_cons_self _ _)
    have hr : x ∉ rest := fun h => hx (List.mem_cons_of_mem _ h)
    rw [List.cons_append]
    simp only [indexFrom, if_neg hy]
    rw [ih (i + 1) hr]
    simp only [List.length_cons]
    push_cast
    ring

theorem append_setCurrent_showsOnly (s : ScreenState) (x : WidgetId) (hs : s.consistent)
    (hx : x ∉ s.list) :
    (ScreenState.setCurrentWidget x
      (if s.index < 0 then
        ScreenState.setCurrentIndex (s.list.length : Int) { s with list := s.list ++ [x] }
      else ScreenState.hideWidget x { s with list := s.list ++ [x] })).showsOnly x ∧
    (ScreenState.setCurrentWidget x
      (if s.index < 0 then
        ScreenState.setCurrentIndex (s.list.length : Int) { s with list := s.list ++ [x] }
      else ScreenState.hideWidget x { s with list := s.list ++ [x] })).list = s.list ++ [x] := by
  obtain ⟨l, idx, sh⟩ := s
  obtain ⟨hnd, hcase⟩ := hs
  simp only at hx hnd hcase ⊢
  have hnd' : (l ++ [x]).Nodup := by
    rw [List.nodup_append]
    refine ⟨hnd, List.nodup_singleton x, ?_⟩
    intro a ha hb
    rw [List.mem_singleton] at hb
    exact hx (hb ▸ ha)
  have hidx : indexFrom x (l ++ [x]) 0 = (l.length : Int) := by
    rw [indexFrom_append_self x l 0 hx, Int.zero_add]
  have hne : ¬ ((l.length : Int) = -1) := by omega
  have hlast : (l ++ [x])[l.length]? = some x := List.getElem?_concat_length _ _
  have hwid : ∀ (i : Int) (sh1 : List WidgetId),
      ScreenState.widget { list := l ++ [x], index := i, shown := sh1 } (l.length : Int) = some x := by
    intro i sh1
    rw [widget_natCast]
    exact hlast
  rcases hcase with ⟨hnil, hneg, hshown⟩ | ⟨c, hc, hshown⟩
  · subst hshown
    rw [if_pos hneg]
    have hcur : ScreenState.currentWidget { list := l ++ [x], index := idx, shown := [] } = none := by
      simp [ScreenState.currentWidget, ScreenState.widget, hneg]
    simp only [ScreenState.setCurrentIndex, hwid, hcur, reduceCtorEq, ↓reduceIte,
      ScreenState.showWidget, List.not_mem_nil]
    simp only [ScreenState.setCurrentWidget, ScreenState.indexOf, hidx, hne, ↓reduceIte]
    simp only [ScreenState.setCurrentIndex, hwid, ScreenState.currentWidget, ↓reduceIte]
    exact ⟨⟨hnd', hwid _ _, rfl⟩, trivial⟩
  · subst hshown
    obtain ⟨hi0, hcget⟩ := (widget_eq_some _ _ c).1 hc
    simp only at hi0 hcget
    have hcmem : c ∈ l := List.getElem?_mem hcget
    have hcx : c ≠ x := fun h => hx (h ▸ hcmem)
    rw [if_neg (by omega)]
    have hfil : List.filter (fun y => decide (y ≠ x)) [c] = [c] := by simp [hcx]
    simp only [ScreenState.hideWidget, hfil]
    simp only [ScreenState.setCurrentWidget, ScreenState.indexOf, hidx, hne, ↓reduceIte]
    have hcur : ScreenState.currentWidget
        { list := l ++ [x], index := idx, shown := [c] } = some c := by
      refine (widget_eq_some _ _ _).2 ⟨hi0, ?_⟩
      simp only
      have hlt : idx.toNat < l.length := by
        by_contra hc2
        rw [List.getElem?_eq_none (by omega)] at hcget
        cases hcget
      rw [List.getElem?_append_left hlt]
      exact hcget
    have hcx' : ¬ (some c = some x) := fun h => hcx (Option.some.inj h)
    simp only [ScreenState.setCurrentIndex, hwid, hcur, hcx', ↓reduceIte, ScreenState.hideWidget,
      ScreenState.showWidget]
    refine ⟨⟨hnd', ?_, ?_⟩, trivial⟩
    · exact hwid _ _
    · simp

theorem attach_showsOnly (s : ScreenState) (x : WidgetId) (hs : s.consistent) :
    ((s.addWidget x).setCurrentWidget x).showsOnly x ∧
      ∀ y ∈ s.list, y ∈ ((s.addWidget x).setCurrentWidget x).list := by
  obtain ⟨h1, h2, h3⟩ := removeWidget_consistent s x hs
  obtain ⟨h4, h5⟩ := append_setCurrent_showsOnly (s.removeWidget x) x h1 h2
  unfold ScreenState.addWidget
  simp only
  refine ⟨h4, fun y hy => ?_⟩
  rw [h5]
  by_cases hyx : y = x
  · subst hyx
    simp
  · exact List.mem_append_left _ (h3 y hy hyx)

theorem showsOnly_consistent (s : ScreenState) (c : WidgetId) (h : s.showsOnly c) :
    s.consistent :=
  ⟨h.1, Or.inr ⟨c, h.2.1, h.2.2⟩⟩

theorem attachWidgets_showsOnly (xs : List WidgetId) :
    ∀ (w : Window) (c : WidgetId), w.m_screenWidget.showsOnly c →
      ∃ d, (w.attachWidgets xs).m_screenWidget.showsOnly d ∧
        (∀ y ∈ w.m_screenWidget.list, y ∈ (w.attachWidgets xs).m_screenWidget.list) ∧
        (∀ y ∈ xs, y ∈ (w.attachWidgets xs).m_screenWidget.list) := by
  induction xs with
  | nil => intro w c h; exact ⟨c, h, fun y hy => hy, fun y hy => absurd hy (List.not_mem_nil y)⟩
  | cons x rest ih =>
    intro w c h
    obtain ⟨h1, h2⟩ := attach_showsOnly w.m_screenWidget x (showsOnly_consistent _ _ h)
    obtain ⟨d, h3, h4, h5⟩ := ih (w.attachWidget x) x h1
    refine ⟨d, h3, fun y hy => h4 y (h2 y hy), ?_⟩
    intro y hy
    rcases List.mem_cons.1 hy with hyx | hyr
    · subst hyx
      exact h4 y (List.getElem?_mem ((widget_eq_some _ _ _).1 h1.2.1).2)
    · exact h5 y hyr

theorem attachWidgets_append (w : Window) (xs : List WidgetId) (x : WidgetId) :
    w.attachWidgets (xs ++ [x]) = (w.attachWidgets xs).attachWidget x := by
  simp [Window.attachWidgets, List.foldl_append]

theorem new_screen :
    Window.new.m_screenWidget = { list := [2], index := 0, shown := [2] } ∧
      Window.new.m_display = 2 := by
  unfold Window.new Window.setupMenu
  simp only [quickLoop_unroll]
  exact ⟨rfl, rfl⟩

theorem new_showsOnly : Window.new.m_screenWidget.showsOnly Window.new.m_display := by
  rw [new_screen.1, new_screen.2]
  refine ⟨by simp, rfl, rfl⟩

/-! ## Theorems -/

/-- C1: `mapKey` is a total function of the key code alone; on every key code it agrees
with the ten-entry table of the specification (Z to A, X to B, A to L, S to R, Return to
START, Backspace to SELECT, Up, Down, Left and Right to the four directions) and it returns
`GBA_KEY_NONE` on every key code that is not one of the ten. -/
theorem mapKey_table :
    (∀ k : Int, mapKey k = tableLookup k) ∧
    mapKey Key_Z = GBAKey.GBA_KEY_A ∧ mapKey Key_X = GBAKey.GBA_KEY_B ∧
    mapKey Key_A = GBAKey.GBA_KEY_L ∧ mapKey Key_S = GBAKey.GBA_KEY_R ∧
    mapKey Key_Return = GBAKey.GBA_KEY_START ∧ mapKey Key_Backspace = GBAKey.GBA_KEY_SELECT ∧
    mapKey Key_Up = GBAKey.GBA_KEY_UP ∧ mapKey Key_Down = GBAKey.GBA_KEY_DOWN ∧
    mapKey Key_Left = GBAKey.GBA_KEY_LEFT ∧ mapKey Key_Right = GBAKey.GBA_KEY_RIGHT ∧
    (∀ k : Int, k ∉ [Key_Z, Key_X, Key_A, Key_S, Key_Return, Key_Backspace, Key_Up, Key_Down,
        Key_Left, Key_Right] → mapKey k = GBAKey.GBA_KEY_NONE) := by
  refine ⟨?_, by decide, by decide, by decide, by decide, by decide, by decide, by decide,
    by decide, by decide, by decide, ?_⟩
  · intro k
    by_cases h1 : k = Key_Z
    · subst h1; decide
    by_cases h2 : k = Key_X
    · subst h2; decide
    by_cases h3 : k = Key_A
    · subst h3; decide
    by_cases h4 : k = Key_S
    · subst h4; decide
    by_cases h5 : k = Key_Return
    · subst h5; decide
    by_cases h6 : k = Key_Backspace
    · subst h6; decide
    by_cases h7 : k = Key_Up
    · subst h7; decide
    by_cases h8 : k = Key_Down
    · subst h8; decide
    by_cases h9 : k = Key_Left
    · subst h9; decide
    by_cases h10 : k = Key_Right
    · subst h10; decide
    simp [mapKey, tableLookup, keyTable, List.find?, h1, h2, h3, h4, h5, h6, h7, h8, h9, h10,
      Ne.symm h1, Ne.symm h2, Ne.symm h3, Ne.symm h4, Ne.symm h5, Ne.symm h6, Ne.symm h7,
      Ne.symm h8, Ne.symm h9, Ne.symm h10]
  · intro k hk
    simp only [List.mem_cons, List.mem_singleton, List.not_mem_nil, or_false, not_or] at hk
    obtain ⟨h1, h2, h3, h4, h5, h6, h7, h8, h9, h10⟩ := hk
    simp [mapKey, h1, h2, h3, h4, h5, h6, h7, h8, h9, h10]

/-- C2: for a key `k` that has a mapping, a non-repeat press of `k`, then any number of
auto-repeat press or release events, then a non-repeat release of `k` make the controller
receive `keyPressed (mapKey k)` and then `keyReleased (mapKey k)` and nothing else; an
auto-repeat event alone adds no controller call. -/
theorem autoRepeat_filtered (w : Window) (k : Int) (a b : Bool) (mid : List KeyInput)
    (hk : mapKey k ≠ GBAKey.GBA_KEY_NONE)
    (hmid : ∀ e ∈ mid, e.event.isAutoRepeat = true) :
    controllerCalls
        ((KeyInput.press { key := k, isAutoRepeat := false, accepted := a } :: mid ++
          [KeyInput.release { key := k, isAutoRepeat := false, accepted := b }]).foldl
          Window.deliver w).trace
      = controllerCalls w.trace ++
          [ControllerCall.keyPressed (mapKey k), ControllerCall.keyReleased (mapKey k)] ∧
    ∀ e ∈ mid, ∀ w1 : Window, controllerCalls (w1.deliver e).trace = controllerCalls w1.trace := by
  refine ⟨?_, fun e he w1 => deliver_autoRepeat w1 e (hmid e he)⟩
  simp only [List.foldl_cons, List.foldl_append, List.foldl_nil]
  simp only [Window.deliver, Window.keyReleaseEvent, hk, Window.log, controllerCalls_append,
    controllerCalls, if_false, Bool.false_eq_true]
  rw [deliver_autoRepeat_list mid _ hmid]
  simp [Window.keyPressEvent, hk, Window.log, controllerCalls_append, controllerCalls]

/-- Witness of C2: key Z held for three auto-repeat events on a new window. -/
theorem autoRepeat_filtered_witness :
    controllerCalls
        ((KeyInput.press { key := Key_Z, isAutoRepeat := false, accepted := true } ::
          [KeyInput.release { key := Key_Z, isAutoRepeat := true, accepted := true },
           KeyInput.press { key := Key_Z, isAutoRepeat := true, accepted := true },
           KeyInput.press { key := Key_Z, isAutoRepeat := true, accepted := true }] ++
          [KeyInput.release { key := Key_Z, isAutoRepeat := false, accepted := true }]).foldl
          Window.deliver Window.new).trace
      = controllerCalls Window.new.trace ++
          [ControllerCall.keyPressed (mapKey Key_Z), ControllerCall.keyReleased (mapKey Key_Z)] :=
  (autoRepeat_filtered Window.new Key_Z true true
    [KeyInput.release { key := Key_Z, isAutoRepeat := true, accepted := true },
     KeyInput.press { key := Key_Z, isAutoRepeat := true, accepted := true },
     KeyInput.press { key := Key_Z, isAutoRepeat := true, accepted := true }]
    (by decide) (by decide)).1

/-- C3, what the code does: a non-repeat release of the unmapped key Q (code 0x51) is
handed to `QWidget::keyPressEvent`, the handler for presses, and so the window does not
end in the state that handing it to `QWidget::keyReleaseEvent` gives; the controller is
not called and the event ends up not accepted. The same holds for every non-repeat event
of a key without mapping, while `keyPressEvent` hands such an event to the handler of its
own kind. -/
theorem keyRelease_unmapped_goes_to_press_handler (w : Window) (a : Bool) :
    mapKey 0x51 = GBAKey.GBA_KEY_NONE ∧
    w.keyReleaseEvent { key := 0x51, isAutoRepeat := false, accepted := a }
      = w.QWidget_keyPressEvent { key := 0x51, isAutoRepeat := false, accepted := a } ∧
    (w.keyReleaseEvent { key := 0x51, isAutoRepeat := false, accepted := a }).1.trace
      = w.trace ++ [Call.QWidget_keyPressEvent] ∧
    (w.keyReleaseEvent { key := 0x51, isAutoRepeat := false, accepted := a }).1
      ≠ (w.QWidget_keyReleaseEvent { key := 0x51, isAutoRepeat := false, accepted := a }).1 ∧
    controllerCalls (w.keyReleaseEvent { key := 0x51, isAutoRepeat := false, accepted := a }).1.trace
      = controllerCalls w.trace ∧
    (w.keyReleaseEvent { key := 0x51, isAutoRepeat := false, accepted := a }).2.accepted = false ∧
    (∀ e : QKeyEvent, e.isAutoRepeat = false → mapKey e.key = GBAKey.GBA_KEY_NONE →
      w.keyPressEvent e = w.QWidget_keyPressEvent e ∧
      w.keyReleaseEvent e = w.QWidget_keyPressEvent e ∧
      (w.keyReleaseEvent e).1 ≠ (w.QWidget_keyReleaseEvent e).1) := by
  have hm : mapKey 0x51 = GBAKey.GBA_KEY_NONE := by decide
  refine ⟨hm, ?_, ?_, ?_, ?_, ?_, ?_⟩
  · simp [Window.keyReleaseEvent, hm]
  · simp [Window.keyReleaseEvent, hm, Window.QWidget_keyPressEvent, Window.log]
  · intro h
    have ht := congrArg Window.trace h
    simp [Window.keyReleaseEvent, hm, Window.QWidget_keyPressEvent,
      Window.QWidget_keyReleaseEvent, Window.log] at ht
  · simp [Window.keyReleaseEvent, hm, Window.QWidget_keyPressEvent, Window.log,
      controllerCalls_append, controllerCalls]
  · simp [Window.keyReleaseEvent, hm, Window.QWidget_keyPressEvent]
  · intro e he hmap
    refine ⟨by simp [Window.keyPressEvent, he, hmap],
      by simp [Window.keyReleaseEvent, he, hmap], ?_⟩
    intro h
    have ht := congrArg Window.trace h
    simp [Window.keyReleaseEvent, he, hmap, Window.QWidget_keyPressEvent,
      Window.QWidget_keyReleaseEvent, Window.log] at ht

/-- C4: with no state browser open and a live session, opening the browser (in either
mode) leaves the session paused, and the `closed` signal of the browser that follows puts
the controller back into the state it had before: a Running session is Running again, and
for a session that was already Paused the controller receives no call at all. -/
theorem stateWindow_pause_coordination (w : Window) (ls : LoadSave)
    (hnone : w.m_stateWindow = none)
    (hlive : w.m_controller.session ≠ SessionState.Stopped) :
    (w.openStateWindow ls).m_controller.isPaused = true ∧
    (w.openStateWindow ls).stateWindowClosed.m_controller = w.m_controller ∧
    (w.openStateWindow ls).stateWindowClosed.m_controller.isPaused = w.m_controller.isPaused ∧
    (w.m_controller.isPaused = true →
      controllerCalls (w.openStateWindow ls).stateWindowClosed.trace = controllerCalls w.trace) ∧
    (w.m_controller.isPaused = false →
      controllerCalls (w.openStateWindow ls).stateWindowClosed.trace =
        controllerCalls w.trace ++ [ControllerCall.setPaused true, ControllerCall.setPaused false]) := by
  obtain ⟨c, d, g, l, sw, scr, acts, conns, pa, fs, sws, nw, tr⟩ := w
  obtain ⟨sess⟩ := c
  simp only at hnone hlive
  subst hnone
  cases sess with
  | Stopped => exact absurd rfl hlive
  | Running =>
    cases fs <;>
      simp [Window.openStateWindow, Window.stateWindowClosed, Window.onStateWindow,
        Window.controllerSetPaused, Window.log, Window.runClosedSlot, Window.attachWidget,
        Window.destroyStateWindow, GameController.isPaused, GameController.setPaused,
        controllerCalls_append, controllerCalls]
  | Paused =>
    cases fs <;>
      simp [Window.openStateWindow, Window.stateWindowClosed, Window.onStateWindow,
        Window.controllerSetPaused, Window.log, Window.runClosedSlot, Window.attachWidget,
        Window.destroyStateWindow, GameController.isPaused, GameController.setPaused,
        controllerCalls_append, controllerCalls]

/-- Witness of C4: the new window after the controller has started a game, browser opened
for saving. -/
theorem stateWindow_pause_coordination_witness :
    (Window.new.step WindowOp.gameStarted).m_stateWindow = none ∧
    (Window.new.step WindowOp.gameStarted).m_controller.session ≠ SessionState.Stopped ∧
    ((Window.new.step WindowOp.gameStarted).openStateWindow LoadSave.SAVE).m_controller.isPaused
      = true ∧
    ((Window.new.step WindowOp.gameStarted).openStateWindow
        LoadSave.SAVE).stateWindowClosed.m_controller
      = (Window.new.step WindowOp.gameStarted).m_controller := by
  have h1 : (Window.new.step WindowOp.gameStarted).m_stateWindow = none := by
    unfold Window.new Window.setupMenu
    simp only [quickLoop_unroll]
    rfl
  have h2 : (Window.new.step WindowOp.gameStarted).m_controller.session ≠ SessionState.Stopped := by
    unfold Window.new Window.setupMenu
    simp only [quickLoop_unroll]
    decide
  have h := stateWindow_pause_coordination (Window.new.step WindowOp.gameStarted) LoadSave.SAVE h1 h2
  exact ⟨h1, h2, h.1, h.2.1⟩

/-- C5: while a state browser is open, `openStateWindow` (in either mode, any number of
times) returns the window state unchanged: same browser and mode, same controller, same
screen content, same connections. Starting without a browser, any sequence of calls gives
what the first call alone gives: one new browser, in the mode of the first call. So in a
window at any point after its construction, exactly one state browser is alive after a
sequence of calls. -/
theorem openStateWindow_single_instance (w : Window) (ls : LoadSave) (rest : List LoadSave) :
    (w.m_stateWindow ≠ none →
      w.openStateWindow ls = w ∧ w.openStateWindows rest = w) ∧
    (w.m_stateWindow = none →
      w.openStateWindows (ls :: rest) = w.openStateWindow ls ∧
      (w.openStateWindow ls).stateWindows = w.stateWindows ++ [w.nextWidget] ∧
      (w.openStateWindow ls).m_stateWindow.map LoadSaveState.id = some w.nextWidget ∧
      (w.openStateWindow ls).m_stateWindow.map LoadSaveState.mode = some (some ls)) ∧
    (∀ ops : List WindowOp,
      ((Window.new.run ops).openStateWindows (ls :: rest)).stateWindows.length = 1 ∧
      ((Window.new.run ops).openStateWindows (ls :: rest)).stateWindows =
        (((Window.new.run ops).openStateWindows (ls :: rest)).m_stateWindow.map
          LoadSaveState.id).toList) := by
  refine ⟨(openStateWindows_first_call w ls rest).1, (openStateWindows_first_call w ls rest).2, ?_⟩
  intro ops
  have h := run_wired ops Window.new new_wired
  generalize Window.new.run ops = v at h
  unfold Window.shutdownWired at h
  cases hs : v.m_stateWindow with
  | none =>
    rw [hs] at h
    obtain ⟨h1, h2, h3, _⟩ := (openStateWindows_first_call v ls rest).2 hs
    rw [h1, h2, h.2]
    cases hm : (v.openStateWindow ls).m_stateWindow with
    | none => rw [hm] at h3; cases h3
    | some sw =>
      rw [hm] at h3
      simp only [Option.map_some', Option.some.injEq] at h3
      simp [h3]
  | some sw =>
    rw [hs] at h
    have hne : v.m_stateWindow ≠ none := by rw [hs]; exact Option.some_ne_none sw
    have h1 := ((openStateWindows_first_call v ls rest).1 hne).2
    have h2 := ((openStateWindows_first_call v ls (ls :: rest)).1 hne).2
    rw [h2, hs, h.2.1]
    simp

/-- C6: the commands that `setupMenu` gates (reset, shutdown, load state, save state, the
quick-load and quick-save entries, pause, next frame) are all disabled in the new window,
and after any sequence of `gameStarted`/`gameStopped` signals they are the same commands,
all enabled when the last signal was `gameStarted` and all disabled when it was
`gameStopped`. -/
theorem gated_commands_follow_lifecycle :
    (Window.new.gatedActions.map QAction.effect = gatedEffects ∧
      ∀ a ∈ Window.new.gatedActions, a.enabled = false) ∧
    ∀ (evs : List Lifecycle) (last : Lifecycle),
      ((evs ++ [last]).foldl Window.lifecycle Window.new).gatedActions.map QAction.effect
        = gatedEffects ∧
      ∀ a ∈ ((evs ++ [last]).foldl Window.lifecycle Window.new).gatedActions,
        a.enabled = decide (last = Lifecycle.gameStarted) := by
  refine ⟨new_gatedActions, fun evs last => ⟨?_, ?_⟩⟩
  · rw [gatedEffects_lifecycle]
    exact new_gatedActions.1
  · intro a ha
    rw [List.foldl_append] at ha
    simp only [List.foldl_cons, List.foldl_nil] at ha
    rw [gatedActions_lifecycle] at ha
    obtain ⟨a0, _, rfl⟩ := List.mem_map.1 ha
    rfl

/-- C7: the menu of the new window has exactly nine quick-load commands, for the slots
1 to 9 in this order, one each, and exactly nine quick-save commands likewise; triggering
the quick-load (quick-save) command of slot `i` calls `loadState(i)` (`saveState(i)`) of
the controller and nothing else; and whenever a command of the menu makes a `loadState` or
`saveState` call, the slot is between 1 and 9. -/
theorem quick_slots_one_to_nine :
    Window.new.actions.filterMap (fun a => a.effect.loadSlot) = [1, 2, 3, 4, 5, 6, 7, 8, 9] ∧
    Window.new.actions.filterMap (fun a => a.effect.saveSlot) = [1, 2, 3, 4, 5, 6, 7, 8, 9] ∧
    (∀ (w : Window) (i : Int) (checked : Bool) (filename : String),
      w.runEffect (Effect.loadState i) checked filename
        = { w with trace := w.trace ++ [Call.controller (ControllerCall.loadState i)] } ∧
      w.runEffect (Effect.saveState i) checked filename
        = { w with trace := w.trace ++ [Call.controller (ControllerCall.saveState i)] }) ∧
    (∀ a ∈ Window.new.actions, ∀ (w : Window) (checked : Bool) (filename : String) (slot : Int),
      (Call.controller (ControllerCall.loadState slot) ∈ (w.runEffect a.effect checked filename).trace ∧
          Call.controller (ControllerCall.loadState slot) ∉ w.trace) ∨
        (Call.controller (ControllerCall.saveState slot) ∈ (w.runEffect a.effect checked filename).trace ∧
          Call.controller (ControllerCall.saveState slot) ∉ w.trace) →
      1 ≤ slot ∧ slot ≤ 9) := by
  refine ⟨new_quick_slots.1, new_quick_slots.2, fun w i checked filename => ⟨rfl, rfl⟩, ?_⟩
  intro a ha w checked filename slot h
  have hmem : slot ∈ [(1 : Int), 2, 3, 4, 5, 6, 7, 8, 9] := by
    rcases h with ⟨h1, h2⟩ | ⟨h1, h2⟩
    · rcases runEffect_loadState_call w a.effect checked filename slot h1 with h3 | h3
      · exact absurd h3 h2
      · rw [← new_quick_slots.1]
        exact List.mem_filterMap.2 ⟨a, ha, by rw [h3]; rfl⟩
    · rcases runEffect_saveState_call w a.effect checked filename slot h1 with h3 | h3
      · exact absurd h3 h2
      · rw [← new_quick_slots.2]
        exact List.mem_filterMap.2 ⟨a, ha, by rw [h3]; rfl⟩
  simp only [List.mem_cons, List.mem_singleton, List.not_mem_nil, or_false] at hmem
  omega

/-- C8: whatever happened to the window since its construction, `closeEvent` calls, once
each and in this order, `stopDrawing` of the display, `closeGame` of the controller and
`hide` of the log view, then `hide` of the state browser if one is open, and only then
`QMainWindow::closeEvent`. -/
theorem closeEvent_shutdown_order (ops : List WindowOp) :
    (Window.new.run ops).closeEvent.trace =
      (Window.new.run ops).trace ++
        ([Call.displayStopDrawing, Call.controller ControllerCall.closeGame, Call.logViewHide] ++
          (Window.new.run ops).stateWindowHideCalls ++ [Call.QMainWindow_closeEvent]) := by
  have h := run_wired ops Window.new new_wired
  generalize Window.new.run ops = w at h
  unfold Window.shutdownWired at h
  simp only [Window.closeEvent, Window.emitShutdown, Window.log, emitShutdown_trace,
    Window.stateWindowHideCalls]
  cases hs : w.m_stateWindow with
  | none =>
    rw [hs] at h
    simp [h.1, ShutdownSlot.call]
  | some sw =>
    rw [hs] at h
    simp [h.1, ShutdownSlot.call]

/-- C9: `selectROM` leaves the window as it is when the file dialog returns the empty
name, and for every other name it calls `loadGame` of the controller once, with that name,
and changes nothing else; so the controller is called if and only if the name is not
empty. -/
theorem selectROM_loads_iff_nonempty (w : Window) (filename : String) :
    (filename = "" → w.selectROM filename = w) ∧
    (filename ≠ "" → w.selectROM filename =
      { w with trace := w.trace ++ [Call.controller (ControllerCall.loadGame filename)] }) ∧
    (controllerCalls (w.selectROM filename).trace ≠ controllerCalls w.trace ↔ filename ≠ "") := by
  by_cases h : filename = ""
  · subst h
    simp [Window.selectROM]
  · have hl : filename.length ≠ 0 := fun hl => h ((length_eq_zero_iff_empty filename).1 hl)
    simp [Window.selectROM, hl, h, Window.log, controllerCalls_append, controllerCalls]

/-- C10: in the new window the display is the current surface of the stacked screen widget
and the only widget shown; after any sequence of `attachWidget` calls the argument of the
last call is the current surface and the only widget shown, the stack holds no surface
twice, and the display and every surface attached before are still in the stack, hidden. -/
theorem attachWidget_exclusive :
    (Window.new.m_screenWidget.currentWidget = some Window.new.m_display ∧
      ∀ y, y ∈ Window.new.m_screenWidget.shown ↔ y = Window.new.m_display) ∧
    ∀ (xs : List WidgetId) (last : WidgetId),
      (Window.new.attachWidgets (xs ++ [last])).m_screenWidget.currentWidget = some last ∧
      (∀ y, y ∈ (Window.new.attachWidgets (xs ++ [last])).m_screenWidget.shown ↔ y = last) ∧
      (Window.new.attachWidgets (xs ++ [last])).m_screenWidget.list.Nodup ∧
      (∀ y ∈ Window.new.m_display :: xs,
        y ∈ (Window.new.attachWidgets (xs ++ [last])).m_screenWidget.list ∧
        (y ≠ last → y ∉ (Window.new.attachWidgets (xs ++ [last])).m_screenWidget.shown)) := by
  constructor
  · obtain ⟨_, h2, h3⟩ := new_showsOnly
    exact ⟨h2, fun y => by rw [h3]; simp⟩
  · intro xs last
    obtain ⟨d, h1, h2, h3⟩ := attachWidgets_showsOnly xs Window.new _ new_showsOnly
    rw [attachWidgets_append]
    obtain ⟨⟨h4, h5, h6⟩, h7⟩ :=
      attach_showsOnly (Window.new.attachWidgets xs).m_screenWidget last
        (showsOnly_consistent _ _ h1)
    have hs : ((Window.new.attachWidgets xs).attachWidget last).m_screenWidget
        = (((Window.new.attachWidgets xs).m_screenWidget.addWidget last).setCurrentWidget last) := rfl
    rw [hs]
    refine ⟨h5, fun y => by rw [h6]; simp, h4, ?_⟩
    intro y hy
    refine ⟨?_, fun hne => by rw [h6]; simpa using hne⟩
    rcases List.mem_cons.1 hy with hyd | hyx
    · subst hyd
      apply h7
      apply h2
      rw [new_screen.1, new_screen.2]
      simp
    · exact h7 y (h3 y hyx)

end QGBA
